import Mathlib

/-!
Verification of the nanvix `sys` IPC message envelope (`src/ipc/message.rs`,
`src/ipc/typ.rs`) against its natural-language specification.

Shallow embedding conventions:
- `u8` values are `Nat` constrained to `< 256` where it matters;
- `u32` machine arithmetic is `Nat` with explicit `% 2 ^ 32` / byte splitting;
- native byte order is little-endian (the x86 reference platform);
- byte buffers `[u8; N]` are `List Nat` of length `N`;
- fallible Rust functions return `Except`; a function whose Rust body can
  panic (out-of-bounds slice indexing, mismatched `copy_from_slice`) is
  wrapped in `Option`, with `none` modelling the panic.
-/

set_option maxRecDepth 100000

namespace NanvixSys

/-- `u32::to_ne_bytes`: split a 32-bit value into its four bytes,
little-endian (the native order of the reference platform). -/
def u32_to_ne_bytes (n : Nat) : List Nat :=
  [n % 256, n / 256 % 256, n / 65536 % 256, n / 16777216 % 256]

/-- `u32::from_ne_bytes`: reassemble a 32-bit value from four bytes,
little-endian. Only ever applied to length-4 lists (the `[u8; 4]` type);
the catch-all arm is unreachable in the embedded code paths. -/
def u32_from_ne_bytes : List Nat → Nat
  | [b0, b1, b2, b3] => b0 + 256 * b1 + 65536 * b2 + 16777216 * b3
  | _ => 0

/-- Rust range slicing `buf[a..b]` on a byte buffer: yields the sub-list,
or `none` (a panic) when the range is ill-formed or out of bounds. -/
def sliceRange (l : List Nat) (a b : Nat) : Option (List Nat) :=
  if a ≤ b ∧ b ≤ l.length then some ((l.drop a).take (b - a)) else none

/-- `<&[u8] as TryInto<[u8; 4]>>::try_into`: succeeds exactly when the
slice has length 4. -/
def tryInto4 (l : List Nat) : Except Unit (List Nat) :=
  if l.length = 4 then .ok l else .error ()

/-- `buf[off..off + src.len()].copy_from_slice(&src)`: splice `src` into
`buf` at offset `off`. Every use in the embedded code keeps the range in
bounds and of matching length. -/
def writeRange (buf : List Nat) (off : Nat) (src : List Nat) : List Nat :=
  buf.take off ++ src ++ buf.drop (off + src.length)

/-- Modelled from the spec: the error-reporting facility (the external
`error` crate) "must provide a constructible error value carrying a
machine-checkable kind/code (`InvalidMessage`, `NoMessageAvailable`, ...)".
Only the codes the IPC core can mention are included. -/
inductive ErrorCode where
  | InvalidMessage
  | NoMessageAvailable
deriving DecidableEq

/-- Modelled from the spec: `error::Error::new(code, description)` pairs a
machine-checkable code with a human-readable description string. -/
structure Err where
  code : ErrorCode
  description : String
deriving DecidableEq

instance {ε α : Type} [DecidableEq ε] [DecidableEq α] : DecidableEq (Except ε α) := by
  intro x y
  cases x <;> cases y
  case ok.ok a b =>
    exact if h : a = b then .isTrue (by rw [h]) else .isFalse (fun hh => h (by injection hh))
  case error.error a b =>
    exact if h : a = b then .isTrue (by rw [h]) else .isFalse (fun hh => h (by injection hh))
  case ok.error a b => exact .isFalse (fun hh => Except.noConfusion hh)
  case error.ok a b => exact .isFalse (fun hh => Except.noConfusion hh)

/-- Modelled from the spec: the external `crate::pm::ProcessIdentifier`
type (its module is not among the sources here). The spec requires a
lossless fixed-width `to_ne_bytes` / `from_ne_bytes` codec — width 4 on
this platform, forced by `static_assert_size!(Message, 76)` together with
`HEADER_SIZE = 2 * size_of(ProcessIdentifier) + 4` and `PAYLOAD_SIZE = 64`
— plus a reserved `KERNEL` sentinel value. -/
structure ProcessIdentifier where
  pid : Nat
deriving DecidableEq

/-- Modelled from the spec: the reserved "kernel" sentinel identifier. -/
def ProcessIdentifier.KERNEL : ProcessIdentifier := ⟨0⟩

/-- `mem::size_of::<ProcessIdentifier>()` on the reference platform. -/
def ProcessIdentifier.SIZE : Nat := 4

/-- Modelled from the spec: the lossless fixed-width serialization of a
process identifier (4 bytes, native-endian). -/
def ProcessIdentifier.to_ne_bytes (p : ProcessIdentifier) : List Nat :=
  u32_to_ne_bytes p.pid

/-- Modelled from the spec: the inverse deserialization. -/
def ProcessIdentifier.from_ne_bytes (b : List Nat) : ProcessIdentifier :=
  ⟨u32_from_ne_bytes b⟩

namespace typ

/-- `MessageType` as defined in `src/ipc/typ.rs`: five variants,
`#[repr(u32)]`, deriving `Copy, Clone, PartialEq, Eq`. -/
inductive MessageType where
  | Interrupt
  | Exception
  | Ipc
  | SchedulingEvent
  | Ikc
deriving DecidableEq

/-- `MessageType::SIZE = mem::size_of::<u32>()`. -/
def MessageType.SIZE : Nat := 4

/-- `MessageType::to_bytes` (`src/ipc/typ.rs`). -/
def MessageType.to_bytes : MessageType → List Nat
  | .Interrupt => u32_to_ne_bytes 0
  | .Exception => u32_to_ne_bytes 1
  | .Ipc => u32_to_ne_bytes 2
  | .SchedulingEvent => u32_to_ne_bytes 3
  | .Ikc => u32_to_ne_bytes 4

/-- `MessageType::try_from_bytes` (`src/ipc/typ.rs`). -/
def MessageType.try_from_bytes (bytes : List Nat) : Except Err MessageType :=
  match u32_from_ne_bytes bytes with
  | 0 => .ok .Interrupt
  | 1 => .ok .Exception
  | 2 => .ok .Ipc
  | 3 => .ok .SchedulingEvent
  | 4 => .ok .Ikc
  | _ => .error ⟨.InvalidMessage, "invalid message type"⟩

end typ

namespace message

/-- `MessageType` as defined locally in `src/ipc/message.rs`: only four
variants — this file's enumeration has no `Ikc`. This is the tag type the
`Message` envelope of `message.rs` actually uses. -/
inductive MessageType where
  | Interrupt
  | Exception
  | Ipc
  | SchedulingEvent
deriving DecidableEq

/-- `MessageType::SIZE = mem::size_of::<u32>()` (`src/ipc/message.rs`). -/
def MessageType.SIZE : Nat := 4

/-- `MessageType::to_bytes` (`src/ipc/message.rs`). -/
def MessageType.to_bytes : MessageType → List Nat
  | .Interrupt => u32_to_ne_bytes 0
  | .Exception => u32_to_ne_bytes 1
  | .Ipc => u32_to_ne_bytes 2
  | .SchedulingEvent => u32_to_ne_bytes 3

/-- `MessageType::try_from_bytes` (`src/ipc/message.rs`). -/
def MessageType.try_from_bytes (bytes : List Nat) : Except Err MessageType :=
  match u32_from_ne_bytes bytes with
  | 0 => .ok .Interrupt
  | 1 => .ok .Exception
  | 2 => .ok .Ipc
  | 3 => .ok .SchedulingEvent
  | _ => .error ⟨.InvalidMessage, "invalid message type"⟩

/-- The `Message` struct (`src/ipc/message.rs`): source, destination,
message type and a `PAYLOAD_SIZE`-byte payload. -/
structure Message where
  source : ProcessIdentifier
  destination : ProcessIdentifier
  message_type : MessageType
  payload : List Nat
deriving DecidableEq

/-- `Message::HEADER_SIZE = 2 * size_of::<ProcessIdentifier>() +
MessageType::SIZE`. -/
def Message.HEADER_SIZE : Nat := 2 * ProcessIdentifier.SIZE + MessageType.SIZE

/-- `Message::PAYLOAD_SIZE = 64`. -/
def Message.PAYLOAD_SIZE : Nat := 64

/-- Well-formedness carried by the Rust types of the fields: identifiers
are 32-bit values and the payload is a `[u8; 64]`. -/
def Message.WF (m : Message) : Prop :=
  m.source.pid < 2 ^ 32 ∧ m.destination.pid < 2 ^ 32 ∧
    m.payload.length = Message.PAYLOAD_SIZE ∧ ∀ b ∈ m.payload, b < 256

instance : DecidablePred Message.WF := by
  intro m
  unfold Message.WF
  infer_instance

/-- `Message::new` (`src/ipc/message.rs`): pure constructor, no
validation. -/
def Message.new (source destination : ProcessIdentifier)
    (message_type : MessageType) (payload : List Nat) : Message :=
  { source := source, destination := destination,
    payload := payload, message_type := message_type }

/-- `Message::to_bytes` (`src/ipc/message.rs`): zero-fill a
`HEADER_SIZE + PAYLOAD_SIZE` buffer, then copy the source identifier,
destination identifier, message type and payload, in that order, at a
running offset. -/
def Message.to_bytes (self : Message) : List Nat :=
  let bytes : List Nat := List.replicate (Message.HEADER_SIZE + Message.PAYLOAD_SIZE) 0
  let offset : Nat := 0
  let bytes := writeRange bytes offset self.source.to_ne_bytes
  let offset := offset + ProcessIdentifier.SIZE
  let bytes := writeRange bytes offset self.destination.to_ne_bytes
  let offset := offset + ProcessIdentifier.SIZE
  let bytes := writeRange bytes offset self.message_type.to_bytes
  let offset := offset + MessageType.SIZE
  let bytes := writeRange bytes offset self.payload
  bytes

/-- `Message::try_from_bytes` (`src/ipc/message.rs`): deserialize the
source identifier, then the destination identifier, then the message
type, then copy the payload. `none` models a panic in a slicing or
`copy_from_slice` operation; each failed `try_into` returns the typed
"invalid message" error, and a tag failure propagates via `?`. -/
def Message.try_from_bytes (bytes : List Nat) : Option (Except Err Message) :=
  -- offset = 0: deserialize the source process identifier
  match sliceRange bytes 0 (0 + ProcessIdentifier.SIZE) with
  | none => none
  | some s =>
    match tryInto4 s with
    | .error _ => some (.error ⟨.InvalidMessage, "invalid message"⟩)
    | .ok sourceBytes =>
      -- offset = 4: deserialize the destination process identifier
      match sliceRange bytes 4 (4 + ProcessIdentifier.SIZE) with
      | none => none
      | some s =>
        match tryInto4 s with
        | .error _ => some (.error ⟨.InvalidMessage, "invalid message"⟩)
        | .ok destinationBytes =>
          -- offset = 8: deserialize the message type
          match sliceRange bytes 8 (8 + MessageType.SIZE) with
          | none => none
          | some s =>
            match tryInto4 s with
            | .error _ => some (.error ⟨.InvalidMessage, "invalid message"⟩)
            | .ok typeBytes =>
              match MessageType.try_from_bytes typeBytes with
              | .error e => some (.error e)
              | .ok message_type =>
                -- offset = 12: copy the payload
                match sliceRange bytes 12 (12 + Message.PAYLOAD_SIZE) with
                | none => none
                | some s =>
                  if s.length = Message.PAYLOAD_SIZE then
                    some (.ok ⟨ProcessIdentifier.from_ne_bytes sourceBytes,
                      ProcessIdentifier.from_ne_bytes destinationBytes, message_type,
                      writeRange (List.replicate Message.PAYLOAD_SIZE 0) 0 s⟩)
                  else none

/-- `impl Default for Message` (`src/ipc/message.rs`): kernel endpoints,
`Ipc` tag, zeroed payload. -/
def Message.default : Message :=
  { source := ProcessIdentifier.KERNEL,
    destination := ProcessIdentifier.KERNEL,
    payload := List.replicate Message.PAYLOAD_SIZE 0,
    message_type := MessageType.Ipc }

end message

/-! Helper lemmas about the byte-level primitives. -/

theorem u32_to_ne_bytes_length (n : Nat) : (u32_to_ne_bytes n).length = 4 := rfl

theorem u32_from_to_ne_bytes (n : Nat) (h : n < 2 ^ 32) :
    u32_from_ne_bytes (u32_to_ne_bytes n) = n := by
  show n % 256 + 256 * (n / 256 % 256) + 65536 * (n / 65536 % 256) +
    16777216 * (n / 16777216 % 256) = n
  omega

theorem u32_to_ne_bytes_inj {a b : Nat} (ha : a < 2 ^ 32) (hb : b < 2 ^ 32)
    (h : u32_to_ne_bytes a = u32_to_ne_bytes b) : a = b := by
  have h2 := congrArg u32_from_ne_bytes h
  rwa [u32_from_to_ne_bytes a ha, u32_from_to_ne_bytes b hb] at h2

theorem u32_to_ne_bytes_lt (n : Nat) : ∀ b ∈ u32_to_ne_bytes n, b < 256 := by
  intro b hb
  simp only [u32_to_ne_bytes, List.mem_cons, List.mem_singleton] at hb
  rcases hb with h | h | h | h | h <;> first | (subst h; omega) | cases h

theorem writeRange_zero (b s : List Nat) :
    writeRange b 0 s = s ++ b.drop s.length := by
  simp [writeRange]

theorem writeRange_concat (l1 l2 s : List Nat) :
    writeRange (l1 ++ l2) l1.length s = l1 ++ (s ++ l2.drop s.length) := by
  unfold writeRange
  rw [List.take_left, List.drop_append, List.append_assoc]

theorem sliceRange_eq {l : List Nat} {a b : Nat} (hab : a ≤ b) (hb : b ≤ l.length) :
    sliceRange l a b = some ((l.drop a).take (b - a)) := by
  unfold sliceRange
  rw [if_pos ⟨hab, hb⟩]

theorem tryInto4_eq {l : List Nat} (h : l.length = 4) : tryInto4 l = .ok l := by
  unfold tryInto4
  rw [if_pos h]

theorem message.MessageType.tag_to_bytes_length (t : message.MessageType) :
    t.to_bytes.length = 4 := by
  cases t <;> rfl

theorem ProcessIdentifier.pid_from_to (p : ProcessIdentifier) (h : p.pid < 2 ^ 32) :
    ProcessIdentifier.from_ne_bytes p.to_ne_bytes = p := by
  unfold ProcessIdentifier.from_ne_bytes ProcessIdentifier.to_ne_bytes
  rw [u32_from_to_ne_bytes _ h]

theorem typ.MessageType.typ_tag_from_to (t : typ.MessageType) :
    typ.MessageType.try_from_bytes t.to_bytes = .ok t := by
  cases t <;> rfl

theorem message.MessageType.message_tag_from_to (t : message.MessageType) :
    message.MessageType.try_from_bytes t.to_bytes = .ok t := by
  cases t <;> rfl

/-- Branch-free characterization of the five-variant decoder of
`src/ipc/typ.rs` in terms of the decoded 32-bit value. -/
theorem typ.MessageType.typ_decode_eq (bytes : List Nat) :
    typ.MessageType.try_from_bytes bytes =
      if u32_from_ne_bytes bytes = 0 then .ok .Interrupt
      else if u32_from_ne_bytes bytes = 1 then .ok .Exception
      else if u32_from_ne_bytes bytes = 2 then .ok .Ipc
      else if u32_from_ne_bytes bytes = 3 then .ok .SchedulingEvent
      else if u32_from_ne_bytes bytes = 4 then .ok .Ikc
      else .error ⟨.InvalidMessage, "invalid message type"⟩ := by
  unfold typ.MessageType.try_from_bytes
  generalize u32_from_ne_bytes bytes = n
  rcases n with _ | _ | _ | _ | _ | k <;> simp

/-- Branch-free characterization of the four-variant decoder of
`src/ipc/message.rs` in terms of the decoded 32-bit value. -/
theorem message.MessageType.message_decode_eq (bytes : List Nat) :
    message.MessageType.try_from_bytes bytes =
      if u32_from_ne_bytes bytes = 0 then .ok .Interrupt
      else if u32_from_ne_bytes bytes = 1 then .ok .Exception
      else if u32_from_ne_bytes bytes = 2 then .ok .Ipc
      else if u32_from_ne_bytes bytes = 3 then .ok .SchedulingEvent
      else .error ⟨.InvalidMessage, "invalid message type"⟩ := by
  unfold message.MessageType.try_from_bytes
  generalize u32_from_ne_bytes bytes = n
  rcases n with _ | _ | _ | _ | k <;> simp

theorem list_length_four {l : List Nat} (h : l.length = 4) :
    ∃ a b c d, l = [a, b, c, d] := by
  rcases l with _ | ⟨a, _ | ⟨b, _ | ⟨c, _ | ⟨d, _ | ⟨e, t⟩⟩⟩⟩⟩ <;>
    simp at h
  exact ⟨_, _, _, _, rfl⟩

/-- Slices of the four-piece wire image at the header offsets. -/
theorem concatSlices (s1 s2 s3 p : List Nat) (h1 : s1.length = 4)
    (h2 : s2.length = 4) (h3 : s3.length = 4) :
    (s1 ++ (s2 ++ (s3 ++ p))).take 4 = s1 ∧
    ((s1 ++ (s2 ++ (s3 ++ p))).drop 4).take 4 = s2 ∧
    ((s1 ++ (s2 ++ (s3 ++ p))).drop 8).take 4 = s3 ∧
    (s1 ++ (s2 ++ (s3 ++ p))).drop 12 = p ∧
    (s1 ++ (s2 ++ (s3 ++ p))).drop 8 = s3 ++ p := by
  have d4 : (s1 ++ (s2 ++ (s3 ++ p))).drop 4 = s2 ++ (s3 ++ p) := List.drop_left' h1
  have d8 : (s1 ++ (s2 ++ (s3 ++ p))).drop 8 = s3 ++ p := by
    rw [show (8 : Nat) = 4 + 4 from rfl, ← List.drop_drop, d4]
    exact List.drop_left' h2
  have d12 : (s1 ++ (s2 ++ (s3 ++ p))).drop 12 = p := by
    rw [show (12 : Nat) = 8 + 4 from rfl, ← List.drop_drop, d8]
    exact List.drop_left' h3
  refine ⟨List.take_left' h1, ?_, ?_, d12, d8⟩
  · rw [d4]
    exact List.take_left' h2
  · rw [d8]
    exact List.take_left' h3

/-- Closed form of `Message::to_bytes`: the wire image is the source
bytes, then the destination bytes, then the tag bytes, then the payload,
with no padding. -/
theorem message.Message.to_bytes_eq (m : message.Message)
    (hp : m.payload.length = message.Message.PAYLOAD_SIZE) :
    m.to_bytes = m.source.to_ne_bytes ++ (m.destination.to_ne_bytes ++
      (m.message_type.to_bytes ++ m.payload)) := by
  have h1 : m.source.to_ne_bytes.length = 4 := rfl
  have h2 : m.destination.to_ne_bytes.length = 4 := rfl
  have h3 : m.message_type.to_bytes.length = 4 := MessageType.tag_to_bytes_length _
  show writeRange (writeRange (writeRange (writeRange
      (List.replicate 76 0) 0 m.source.to_ne_bytes)
      4 m.destination.to_ne_bytes)
      8 m.message_type.to_bytes)
      12 m.payload = _
  rw [writeRange_zero, h1, List.drop_replicate]
  norm_num
  rw [show (4 : Nat) = m.source.to_ne_bytes.length from h1.symm, writeRange_concat, h2,
    List.drop_replicate]
  norm_num
  rw [show m.source.to_ne_bytes ++ (m.destination.to_ne_bytes ++ List.replicate 68 0) =
      (m.source.to_ne_bytes ++ m.destination.to_ne_bytes) ++ List.replicate 68 0 from
      (List.append_assoc _ _ _).symm,
    show (8 : Nat) = (m.source.to_ne_bytes ++ m.destination.to_ne_bytes).length by
      rw [List.length_append, h1, h2],
    writeRange_concat, h3, List.drop_replicate]
  norm_num
  rw [← List.append_assoc, ← List.append_assoc,
    show (12 : Nat) = (m.source.to_ne_bytes ++ m.destination.to_ne_bytes ++
        m.message_type.to_bytes).length by
      simp [List.length_append, h1, h2, h3],
    writeRange_concat, hp]
  simp [List.append_assoc, message.Message.PAYLOAD_SIZE]

/-- Closed form of `Message::try_from_bytes` on a correctly sized buffer:
no panic, the endpoints are read from offsets 0 and 4, the tag from
offset 8 (its failure is the only possible failure), the payload from
offset 12. -/
theorem message.Message.try_from_bytes_spec (bytes : List Nat)
    (h : bytes.length = 76) :
    message.Message.try_from_bytes bytes =
      match message.MessageType.try_from_bytes ((bytes.drop 8).take 4) with
      | .ok t => some (.ok ⟨ProcessIdentifier.from_ne_bytes (bytes.take 4),
          ProcessIdentifier.from_ne_bytes ((bytes.drop 4).take 4), t,
          (bytes.drop 12).take 64⟩)
      | .error e => some (.error e) := by
  have l1 : ((bytes.drop 0).take 4).length = 4 := by
    simp [List.length_take, List.length_drop, h]
  have l2 : ((bytes.drop 4).take 4).length = 4 := by
    simp [List.length_take, List.length_drop, h]
  have l3 : ((bytes.drop 8).take 4).length = 4 := by
    simp [List.length_take, List.length_drop, h]
  have l4 : ((bytes.drop 12).take 64).length = 64 := by
    simp [List.length_take, List.length_drop, h]
  cases ht : message.MessageType.try_from_bytes ((bytes.drop 8).take 4) with
  | error e =>
    simp [message.Message.try_from_bytes, sliceRange, tryInto4, ProcessIdentifier.SIZE,
      message.MessageType.SIZE, message.Message.PAYLOAD_SIZE, h, l1, l2, l3, l4, ht]
  | ok t =>
    simp [message.Message.try_from_bytes, sliceRange, tryInto4, ProcessIdentifier.SIZE,
      message.MessageType.SIZE, message.Message.PAYLOAD_SIZE, h, l1, l2, l3, l4, ht,
      writeRange_zero, List.drop_replicate]

theorem message.Message.wire_length (m : message.Message)
    (hp : m.payload.length = message.Message.PAYLOAD_SIZE) :
    m.to_bytes.length = 76 := by
  rw [message.Message.to_bytes_eq m hp]
  simp [ProcessIdentifier.to_ne_bytes, message.MessageType.tag_to_bytes_length, hp,
    message.Message.PAYLOAD_SIZE, u32_to_ne_bytes]

/-! Claim theorems. -/

/-- C1: for every `Message` — any source and destination identifier, any
of the defined message types, any `PAYLOAD_SIZE`-byte payload —
`Message::try_from_bytes (Message::to_bytes m)` succeeds and returns a
message equal to `m` in all four fields. -/
theorem C1_message_roundtrip (m : message.Message) (hm : m.WF) :
    message.Message.try_from_bytes m.to_bytes = some (.ok m) := by
  obtain ⟨hs, hd, hp, hb⟩ := hm
  have h1 : m.source.to_ne_bytes.length = 4 := rfl
  have h2 : m.destination.to_ne_bytes.length = 4 := rfl
  have h3 : m.message_type.to_bytes.length = 4 := message.MessageType.tag_to_bytes_length _
  rw [message.Message.try_from_bytes_spec _ (message.Message.wire_length m hp),
    message.Message.to_bytes_eq m hp]
  obtain ⟨t1, t2, t3, t4, _⟩ := concatSlices m.source.to_ne_bytes
    m.destination.to_ne_bytes m.message_type.to_bytes m.payload h1 h2 h3
  have hp64 : m.payload.length ≤ 64 := by
    simp [hp, message.Message.PAYLOAD_SIZE]
  simp only [t1, t2, t3, t4, message.MessageType.message_tag_from_to,
    ProcessIdentifier.pid_from_to _ hs, ProcessIdentifier.pid_from_to _ hd,
    List.take_of_length_le hp64]

/-- C1 witness: the round-trip at a concrete message. -/
theorem C1_witness :
    message.Message.try_from_bytes
        (message.Message.new ⟨1⟩ ⟨2⟩ .Interrupt (List.replicate 64 7)).to_bytes =
      some (.ok (message.Message.new ⟨1⟩ ⟨2⟩ .Interrupt (List.replicate 64 7))) :=
  C1_message_roundtrip _ (by decide)

/-- C2 counterexample: the wire layout is not tag-first. For the concrete
message `new(7, 9, Ipc, [0; 64])`, bytes 0..4 of `to_bytes` hold the
source identifier, not the `message_type` encoding. -/
theorem C2_counterexample :
    ((message.Message.new ⟨7⟩ ⟨9⟩ .Ipc (List.replicate 64 0)).to_bytes).take 4 =
        ProcessIdentifier.to_ne_bytes ⟨7⟩ ∧
      ((message.Message.new ⟨7⟩ ⟨9⟩ .Ipc (List.replicate 64 0)).to_bytes).take 4 ≠
        message.MessageType.Ipc.to_bytes := by
  decide

/-- C2 amended: `to_bytes` places the source identifier at offset 0, the
destination at offset 4, the 4-byte `message_type` encoding at offset 8
and the payload at offset 12; `try_from_bytes` reads the endpoints from
offsets 0 and 4 and decodes the tag from offset 8 — the tag is the only
field whose decoding can fail. -/
theorem C2_amended (m : message.Message)
    (hp : m.payload.length = message.Message.PAYLOAD_SIZE)
    (bytes : List Nat) (hlen : bytes.length = 76) :
    m.to_bytes = m.source.to_ne_bytes ++ (m.destination.to_ne_bytes ++
      (m.message_type.to_bytes ++ m.payload)) ∧
    message.Message.try_from_bytes bytes =
      match message.MessageType.try_from_bytes ((bytes.drop 8).take 4) with
      | .ok t => some (.ok ⟨ProcessIdentifier.from_ne_bytes (bytes.take 4),
          ProcessIdentifier.from_ne_bytes ((bytes.drop 4).take 4), t,
          (bytes.drop 12).take 64⟩)
      | .error e => some (.error e) :=
  ⟨message.Message.to_bytes_eq m hp, message.Message.try_from_bytes_spec bytes hlen⟩

/-- C2 witness: the amended layout at a concrete message. -/
theorem C2_witness :
    (message.Message.new ⟨3⟩ ⟨4⟩ .Exception (List.replicate 64 5)).to_bytes =
      ProcessIdentifier.to_ne_bytes ⟨3⟩ ++ (ProcessIdentifier.to_ne_bytes ⟨4⟩ ++
        (message.MessageType.Exception.to_bytes ++ List.replicate 64 5)) :=
  (C2_amended (message.Message.new ⟨3⟩ ⟨4⟩ .Exception (List.replicate 64 5)) (by decide)
    (List.replicate 76 0) (by decide)).1

/-- C3 counterexample: the wire size of a concrete serialized message is
not 64 bytes. -/
theorem C3_counterexample : (message.Message.default.to_bytes).length ≠ 64 := by
  decide

/-- C3 amended: the total wire size of a serialized `Message` equals
`HEADER_SIZE + PAYLOAD_SIZE`, which is the fixed constant 76 (the value
also asserted for the in-memory size by `static_assert_size!`), identical
for every message type. -/
theorem C3_amended (m : message.Message)
    (hp : m.payload.length = message.Message.PAYLOAD_SIZE) :
    (m.to_bytes).length = message.Message.HEADER_SIZE + message.Message.PAYLOAD_SIZE ∧
    message.Message.HEADER_SIZE + message.Message.PAYLOAD_SIZE = 76 :=
  ⟨message.Message.wire_length m hp, rfl⟩

/-- C3 witness: the amended size invariant at a concrete message. -/
theorem C3_witness :
    ((message.Message.default).to_bytes).length =
      message.Message.HEADER_SIZE + message.Message.PAYLOAD_SIZE ∧
    message.Message.HEADER_SIZE + message.Message.PAYLOAD_SIZE = 76 :=
  C3_amended message.Message.default
    (by simp [message.Message.default, message.Message.PAYLOAD_SIZE])

/-- C4: for both tag codecs in the sources (`typ.rs` and `message.rs`),
decoding the encoding of any valid tag returns `Ok` of that tag, and
decoding any 4-byte value that is not the encoding of a defined variant
returns an error — never a silent default. -/
theorem C4_tag_codec :
    (∀ x : typ.MessageType, typ.MessageType.try_from_bytes x.to_bytes = .ok x) ∧
    (∀ x : message.MessageType,
      message.MessageType.try_from_bytes x.to_bytes = .ok x) ∧
    (∀ b : List Nat, b.length = 4 → (∀ v ∈ b, v < 256) →
      (∀ x : typ.MessageType, x.to_bytes ≠ b) →
      ∃ e, typ.MessageType.try_from_bytes b = .error e) ∧
    (∀ b : List Nat, b.length = 4 → (∀ v ∈ b, v < 256) →
      (∀ x : message.MessageType, x.to_bytes ≠ b) →
      ∃ e, message.MessageType.try_from_bytes b = .error e) := by
  refine ⟨typ.MessageType.typ_tag_from_to, message.MessageType.message_tag_from_to, ?_, ?_⟩
  · intro b hlen hb hne
    obtain ⟨b0, b1, b2, b3, rfl⟩ := list_length_four hlen
    have hb0 : b0 < 256 := hb _ (by simp)
    have hb1 : b1 < 256 := hb _ (by simp)
    have hb2 : b2 < 256 := hb _ (by simp)
    have hb3 : b3 < 256 := hb _ (by simp)
    have hu : u32_from_ne_bytes [b0, b1, b2, b3] =
        b0 + 256 * b1 + 65536 * b2 + 16777216 * b3 := rfl
    have h5 : 5 ≤ u32_from_ne_bytes [b0, b1, b2, b3] := by
      by_contra hlt
      push_neg at hlt
      rw [hu] at hlt
      have e1 : b1 = 0 := by omega
      have e2 : b2 = 0 := by omega
      have e3 : b3 = 0 := by omega
      have e0 : b0 = 0 ∨ b0 = 1 ∨ b0 = 2 ∨ b0 = 3 ∨ b0 = 4 := by omega
      subst e1; subst e2; subst e3
      rcases e0 with e | e | e | e | e <;> subst e
      · exact hne .Interrupt rfl
      · exact hne .Exception rfl
      · exact hne .Ipc rfl
      · exact hne .SchedulingEvent rfl
      · exact hne .Ikc rfl
    rw [typ.MessageType.typ_decode_eq]
    exact ⟨_, by rw [if_neg (by omega), if_neg (by omega), if_neg (by omega),
      if_neg (by omega), if_neg (by omega)]⟩
  · intro b hlen hb hne
    obtain ⟨b0, b1, b2, b3, rfl⟩ := list_length_four hlen
    have hb0 : b0 < 256 := hb _ (by simp)
    have hb1 : b1 < 256 := hb _ (by simp)
    have hb2 : b2 < 256 := hb _ (by simp)
    have hb3 : b3 < 256 := hb _ (by simp)
    have hu : u32_from_ne_bytes [b0, b1, b2, b3] =
        b0 + 256 * b1 + 65536 * b2 + 16777216 * b3 := rfl
    have h4 : 4 ≤ u32_from_ne_bytes [b0, b1, b2, b3] := by
      by_contra hlt
      push_neg at hlt
      rw [hu] at hlt
      have e1 : b1 = 0 := by omega
      have e2 : b2 = 0 := by omega
      have e3 : b3 = 0 := by omega
      have e0 : b0 = 0 ∨ b0 = 1 ∨ b0 = 2 ∨ b0 = 3 := by omega
      subst e1; subst e2; subst e3
      rcases e0 with e | e | e | e <;> subst e
      · exact hne .Interrupt rfl
      · exact hne .Exception rfl
      · exact hne .Ipc rfl
      · exact hne .SchedulingEvent rfl
    rw [message.MessageType.message_decode_eq]
    exact ⟨_, by rw [if_neg (by omega), if_neg (by omega), if_neg (by omega),
      if_neg (by omega)]⟩

/-- C4 witness: round-trip of the `Ikc` tag and rejection of the 4-byte
value `0xFFFFFFFF`. -/
theorem C4_witness :
    typ.MessageType.try_from_bytes typ.MessageType.Ikc.to_bytes =
        .ok typ.MessageType.Ikc ∧
      ∃ e, typ.MessageType.try_from_bytes [255, 255, 255, 255] = .error e :=
  ⟨C4_tag_codec.1 _,
    C4_tag_codec.2.2.1 _ (by decide) (by decide) (by intro x; cases x <;> decide)⟩

/-- C5 counterexample: the `MessageType` defined in `src/ipc/message.rs`
(one of the claim's cited enumerations, and the one the `Message`
envelope uses) does not accept the code 4 (`Ikc`): its decoder rejects
it, so that enumeration does not consist of the claimed five variants
with codes 0..4. -/
theorem C5_counterexample :
    message.MessageType.try_from_bytes (u32_to_ne_bytes 4) =
      .error ⟨.InvalidMessage, "invalid message type"⟩ := by
  decide

/-- C5 amended: the `MessageType` of `typ.rs` is closed with exactly the
five variants Interrupt, Exception, Ipc, SchedulingEvent, Ikc, encoded
injectively to the native-endian 32-bit codes 0..4, and its decoder
accepts exactly those five codes; the separate `MessageType` of
`message.rs` has only the first four variants (no `Ikc`) and its decoder
accepts exactly the codes 0..3. -/
theorem C5_amended :
    (∀ x : typ.MessageType,
      x = .Interrupt ∨ x = .Exception ∨ x = .Ipc ∨ x = .SchedulingEvent ∨ x = .Ikc) ∧
    typ.MessageType.to_bytes .Interrupt = u32_to_ne_bytes 0 ∧
    typ.MessageType.to_bytes .Exception = u32_to_ne_bytes 1 ∧
    typ.MessageType.to_bytes .Ipc = u32_to_ne_bytes 2 ∧
    typ.MessageType.to_bytes .SchedulingEvent = u32_to_ne_bytes 3 ∧
    typ.MessageType.to_bytes .Ikc = u32_to_ne_bytes 4 ∧
    (∀ x y : typ.MessageType, x.to_bytes = y.to_bytes → x = y) ∧
    (∀ n : Nat, n < 2 ^ 32 →
      ((∃ t, typ.MessageType.try_from_bytes (u32_to_ne_bytes n) = .ok t) ↔ n ≤ 4)) ∧
    (∀ x : message.MessageType,
      x = .Interrupt ∨ x = .Exception ∨ x = .Ipc ∨ x = .SchedulingEvent) ∧
    (∀ n : Nat, n < 2 ^ 32 →
      ((∃ t, message.MessageType.try_from_bytes (u32_to_ne_bytes n) = .ok t) ↔
        n ≤ 3)) := by
  refine ⟨fun x => by cases x <;> simp, rfl, rfl, rfl, rfl, rfl,
    fun x y h => by cases x <;> cases y <;> first | rfl | (exact absurd h (by decide)),
    ?_, fun x => by cases x <;> simp, ?_⟩
  · intro n hn
    rw [typ.MessageType.typ_decode_eq, u32_from_to_ne_bytes n hn]
    rcases Nat.lt_or_ge n 5 with h | h
    · have e : n = 0 ∨ n = 1 ∨ n = 2 ∨ n = 3 ∨ n = 4 := by omega
      rcases e with e | e | e | e | e <;> subst e <;> simp
    · rw [if_neg (by omega), if_neg (by omega), if_neg (by omega),
        if_neg (by omega), if_neg (by omega)]
      simp
      omega
  · intro n hn
    rw [message.MessageType.message_decode_eq, u32_from_to_ne_bytes n hn]
    rcases Nat.lt_or_ge n 4 with h | h
    · have e : n = 0 ∨ n = 1 ∨ n = 2 ∨ n = 3 := by omega
      rcases e with e | e | e | e <;> subst e <;> simp
    · rw [if_neg (by omega), if_neg (by omega), if_neg (by omega),
        if_neg (by omega)]
      simp
      omega

/-- C5 witness: the five-variant decoder of `typ.rs` accepts the code 4
and rejects the code 5. -/
theorem C5_witness :
    ((∃ t, typ.MessageType.try_from_bytes (u32_to_ne_bytes 4) = .ok t) ↔
        (4 : Nat) ≤ 4) ∧
      ((∃ t, typ.MessageType.try_from_bytes (u32_to_ne_bytes 5) = .ok t) ↔
        (5 : Nat) ≤ 4) :=
  ⟨C5_amended.2.2.2.2.2.2.2.1 4 (by decide), C5_amended.2.2.2.2.2.2.2.1 5 (by decide)⟩

/-- C6 counterexample: serialize `Message::new(KERNEL, 7, Ipc,
[0xAB; 64])`, overwrite byte 0 with `0xFF` (an invalid tag code), and
deserialize. Byte 0 belongs to the source identifier field, not to the
tag, so `try_from_bytes` does not return an error: it succeeds, with a
mutated source. -/
theorem C6_counterexample :
    message.Message.try_from_bytes
        (((message.Message.new ProcessIdentifier.KERNEL ⟨7⟩ .Ipc
          (List.replicate 64 171)).to_bytes).set 0 255) =
      some (.ok (message.Message.new ⟨255⟩ ⟨7⟩ .Ipc (List.replicate 64 171))) := by
  decide

/-- C6 amended: in the same scenario, overwriting byte 8 — the first byte
of the `message_type` field — with the invalid tag code `0xFF` makes
`try_from_bytes` return the typed invalid-message-type error: no panic
(`some`), and no partially populated message. -/
theorem C6_amended :
    message.Message.try_from_bytes
        (((message.Message.new ProcessIdentifier.KERNEL ⟨7⟩ .Ipc
          (List.replicate 64 171)).to_bytes).set 8 255) =
      some (.error ⟨.InvalidMessage, "invalid message type"⟩) := by
  decide

/-- C7: `Message::try_from_bytes` is total on correctly sized buffers:
for every 76-byte input it returns `some` result (no slice operation
panics), and that result is an `Ok` message or a typed error value.
(`MessageType::try_from_bytes` is total on its 4-byte input by
construction: its match on the decoded `u32` is exhaustive.) -/
theorem C7_no_panic (bytes : List Nat) (h : bytes.length = 76) :
    ∃ r : Except Err message.Message,
      message.Message.try_from_bytes bytes = some r := by
  rw [message.Message.try_from_bytes_spec _ h]
  cases message.MessageType.try_from_bytes ((bytes.drop 8).take 4) <;> exact ⟨_, rfl⟩

/-- C7 witness: no panic on the all-255 buffer (whose tag field is
invalid). -/
theorem C7_witness :
    ∃ r : Except Err message.Message,
      message.Message.try_from_bytes (List.replicate 76 255) = some r :=
  C7_no_panic (List.replicate 76 255) (by simp)

/-- C8: `Message::default()` has both endpoints equal to the reserved
`ProcessIdentifier::KERNEL` sentinel and an all-zero payload. -/
theorem C8_default :
    message.Message.default.source = ProcessIdentifier.KERNEL ∧
    message.Message.default.destination = ProcessIdentifier.KERNEL ∧
    message.Message.default.payload =
      List.replicate message.Message.PAYLOAD_SIZE 0 := by
  exact ⟨rfl, rfl, rfl⟩

/-- C9: swapping the source and destination of a message (with the two
identifiers distinct) changes the serialized bytes, and the change is
confined to the identifier fields: the two buffers agree from offset 8
on (tag and payload). -/
theorem C9_swap_endpoints (a b : ProcessIdentifier) (t : message.MessageType)
    (p : List Nat) (ha : a.pid < 2 ^ 32) (hb : b.pid < 2 ^ 32) (hne : a ≠ b)
    (hp : p.length = message.Message.PAYLOAD_SIZE) :
    (message.Message.new a b t p).to_bytes ≠
        (message.Message.new b a t p).to_bytes ∧
      ((message.Message.new a b t p).to_bytes).drop 8 =
        ((message.Message.new b a t p).to_bytes).drop 8 := by
  have h3 : t.to_bytes.length = 4 := message.MessageType.tag_to_bytes_length _
  have hab := message.Message.to_bytes_eq (message.Message.new a b t p) hp
  have hba := message.Message.to_bytes_eq (message.Message.new b a t p) hp
  simp only [message.Message.new] at hab hba ⊢
  obtain ⟨ta1, _, _, _, ta8⟩ :=
    concatSlices a.to_ne_bytes b.to_ne_bytes t.to_bytes p rfl rfl h3
  obtain ⟨tb1, _, _, _, tb8⟩ :=
    concatSlices b.to_ne_bytes a.to_ne_bytes t.to_bytes p rfl rfl h3
  constructor
  · intro heq
    rw [hab, hba] at heq
    have htake := congrArg (List.take 4) heq
    rw [ta1, tb1] at htake
    have : a.pid = b.pid := u32_to_ne_bytes_inj ha hb htake
    cases a
    cases b
    simp only at this
    exact hne (by rw [this])
  · rw [hab, hba, ta8, tb8]

/-- C9 witness: the swap scenario at concrete identifiers 1 and 2. -/
theorem C9_witness :
    (message.Message.new ⟨1⟩ ⟨2⟩ .Ipc (List.replicate 64 9)).to_bytes ≠
        (message.Message.new ⟨2⟩ ⟨1⟩ .Ipc (List.replicate 64 9)).to_bytes ∧
      ((message.Message.new ⟨1⟩ ⟨2⟩ .Ipc (List.replicate 64 9)).to_bytes).drop 8 =
        ((message.Message.new ⟨2⟩ ⟨1⟩ .Ipc (List.replicate 64 9)).to_bytes).drop 8 :=
  C9_swap_endpoints ⟨1⟩ ⟨2⟩ .Ipc (List.replicate 64 9)
    (by decide) (by decide) (by decide) (by simp [message.Message.PAYLOAD_SIZE])

/-- C10: on every correctly sized byte buffer, decoding succeeds exactly
when the four bytes at the message-type field's offset (offset 8) decode
to a defined tag code (0..3 for the envelope's four-variant tag type);
the endpoint and payload bytes can never cause a failure, and every
failure carries the `InvalidMessage` error code — a `NoMessageAvailable`
error is never returned. -/
theorem C10_validation (bytes : List Nat) (h : bytes.length = 76)
    (hbyte : ∀ v ∈ bytes, v < 256) :
    ((∃ m, message.Message.try_from_bytes bytes = some (.ok m)) ↔
        u32_from_ne_bytes ((bytes.drop 8).take 4) ≤ 3) ∧
      ∀ e, message.Message.try_from_bytes bytes = some (.error e) →
        e.code = ErrorCode.InvalidMessage := by
  rw [message.Message.try_from_bytes_spec _ h, message.MessageType.message_decode_eq]
  split_ifs with h0 h1 h2 h3 <;>
    refine ⟨by simp <;> omega, ?_⟩ <;> intro e he <;> simp at he
  rw [← he]

/-- C10 witness: the characterization at the all-zero buffer. -/
theorem C10_witness :
    ((∃ m, message.Message.try_from_bytes (List.replicate 76 0) = some (.ok m)) ↔
        u32_from_ne_bytes (((List.replicate 76 0 : List Nat).drop 8).take 4) ≤ 3) ∧
      ∀ e, message.Message.try_from_bytes (List.replicate 76 0) = some (.error e) →
        e.code = ErrorCode.InvalidMessage :=
  C10_validation (List.replicate 76 0) (by simp) (by decide)

end NanvixSys
